import Mathlib

/-!
Verification of the Clixy bulk filesystem operation engine.

This development is a shallow embedding of the Rust sources into Lean:

* filesystem interaction (existence checks, metadata reads, opens, byte
  copies, OS locks, directory creation and removal) is represented by
  oracle fields recording the outcome each call site observes;
* the rayon data-parallel loops that only append to a mutex-guarded
  collection are modelled by a sequential fold, one linearisation of the
  concurrent execution, which is faithful for the set-level and
  control-flow properties proved here;
* paths are lists of components.

Embedded code, by section:
* src/src/content_tree/copyable.rs  (conflict policy, copy engine)
* src/src/content_tree/tree.rs      (lockable content tree)
* src/src/path_content.rs           (indexer)
* src/src/commands/file/move.rs and src/src/commands/move.rs (move
  orchestrators, two iterations of the same design)
-/

/-- A filesystem path, as a list of components. -/
abbrev FsPath := List String

/-- Mirrors `CopyTypesOptions` from src/src/commands/copy.rs (also the enum
of the same name in src/src/main.rs). -/
inductive CopyTypesOptions where
  | none
  | replace
  | complete
  | update
  deriving Repr, DecidableEq

/-- The open mode `handle_copy_option` configures on the `OpenOptions` it is
given: `createNew` models `.write(true).create_new(true)`, `createOrTruncate`
models `.write(true).create(true).truncate(true)`. -/
inductive OpenMode where
  | createNew
  | createOrTruncate
  deriving Repr, DecidableEq

/-- Mirrors `Node::handle_copy_option` from src/src/content_tree/copyable.rs
(lines 106-146).  Inputs are the filesystem observations the Rust code makes:
`destExists` is `full_path.exists()`, `srcMtime` is
`file_node.handle.metadata()?.modified()?` (`Option.none` when either call
fails), `destMtime` is `std::fs::metadata(full_path)?.modified()?`.  The
result is `Ok (do_copy, configured open mode)`; a failed metadata read under
`Update` propagates as an error for this item. -/
def handle_copy_option (option : CopyTypesOptions) (destExists : Bool)
    (srcMtime destMtime : Option Nat) : Except Unit (Bool × Option OpenMode) :=
  match option with
  | .none => .ok (true, some .createNew)
  | .replace => .ok (true, some .createOrTruncate)
  | .complete =>
      if destExists then .ok (false, Option.none)
      else .ok (true, some .createNew)
  | .update =>
      if destExists then
        match srcMtime, destMtime with
        | some s, some d =>
            if s > d then .ok (true, some .createOrTruncate)
            else .ok (false, Option.none)
        | _, _ => .error ()
      else .ok (true, some .createNew)

/-- Claim C2: under `Complete` a file is written iff its destination does not
exist; under `Update` it is written iff the destination does not exist or the
source mtime is strictly newer, so equal mtimes decide `Skip`; `None` and
`Replace` always decide `Write`. -/
theorem handle_copy_option_decision (destExists : Bool) (srcMtime destMtime : Option Nat) :
    handle_copy_option .none destExists srcMtime destMtime = .ok (true, some .createNew) ∧
    handle_copy_option .replace destExists srcMtime destMtime
      = .ok (true, some .createOrTruncate) ∧
    (∀ b m, handle_copy_option .complete destExists srcMtime destMtime = .ok (b, m) →
      (b = true ↔ destExists = false)) ∧
    (∀ b m, handle_copy_option .update destExists srcMtime destMtime = .ok (b, m) →
      (b = true ↔ (destExists = false ∨
        ∃ s d, srcMtime = some s ∧ destMtime = some d ∧ s > d))) ∧
    (∀ t : Nat, handle_copy_option .update true (some t) (some t)
      = .ok (false, Option.none)) := by
  refine ⟨rfl, rfl, ?_, ?_, ?_⟩
  · intro b m h
    cases destExists <;> simp_all [handle_copy_option]
  · intro b m h
    cases destExists with
    | false => simp_all [handle_copy_option]
    | true =>
      cases srcMtime with
      | none => simp [handle_copy_option] at h
      | some s =>
        cases destMtime with
        | none => simp [handle_copy_option] at h
        | some d =>
          by_cases hsd : s > d <;> simp_all [handle_copy_option]
  · intro t
    simp [handle_copy_option]

/-- Witness for C2: concrete evaluation of the decision function, with each
hypothesis of the claim theorem discharged at a concrete input. -/
theorem handle_copy_option_decision_witness :
    (true = true ↔ (true : Bool) = false ∨
      ∃ s d, (some 5 : Option Nat) = some s ∧ (some 3 : Option Nat) = some d ∧ s > d) ∧
    (false = true ↔ (true : Bool) = false) := by
  constructor
  · exact (handle_copy_option_decision true (some 5) (some 3)).2.2.2.1 true
      (some .createOrTruncate) rfl
  · exact (handle_copy_option_decision true (some 5) (some 3)).2.2.1 false
      Option.none rfl

/-- Outcomes of the filesystem and OS calls made through the handle of a file
during an operation: each field records what the corresponding call site in
the Rust code would observe for this file (`Option.none` mtimes model failed
metadata reads). -/
structure FileBeh where
  srcMtime : Option Nat
  destExists : Bool
  destMtime : Option Nat
  openOk : Bool
  copyOk : Bool
  lockOk : Bool
  unlockOk : Bool
  deriving Repr, DecidableEq

/-- Mirrors `FileNode` from src/src/content_tree/tree.rs: the file name
without extension, the extension, and the lock flag.  The open `handle` is
modelled by the behaviour oracle `beh`. -/
structure FileNode where
  name : String
  extension : String
  is_locked : Bool
  beh : FileBeh
  deriving Repr, DecidableEq

/-- Mirrors `Node` from src/src/content_tree/tree.rs.  A folder node carries
its name and children; `createOk` is the oracle for the
`std::fs::create_dir_all` call `prepare_stack` makes at the destination
path of this folder. -/
inductive Node where
  | file : FileNode → Node
  | folder : String → Bool → List Node → Node

/-- Mirrors `FileNode::new`: the lock flag starts out false. -/
def FileNode.new (name : String) (extension : String) (beh : FileBeh) : FileNode :=
  ⟨name, extension, false, beh⟩

/-- A snapshot of the filesystem under a path, as seen by `Node::new`:
`file` carries `path.file_stem()` and `path.extension()` (either may be
absent) and whether `File::open` succeeds, plus the behaviour oracle the
handle of the resulting node will exhibit; `dir` carries `path.file_name()`,
whether `read_dir` succeeds, the `create_dir_all` oracle, and its entries
(an entry whose `DirEntry` read fails is represented by `other`, which
`Node::new` maps to a missing node exactly as the failed `entry.ok()?`
does); `other` is a path that is neither a file nor a directory. -/
inductive FsEntry where
  | file : Option String → Option String → Bool → FileBeh → FsEntry
  | dir : Option String → Bool → Bool → List FsEntry → FsEntry
  | other : FsEntry

mutual

/-- Mirrors `Node::new` from src/src/content_tree/tree.rs (lines 112-138):
for a file, `file_stem()?`, then `File::open(path).ok()?`, then
`extension()?`; for a directory, `file_name()?`, then `read_dir().ok()?`,
then the children are built with `filter_map`, so an entry on which the
build fails is dropped from the children; anything else gives `none`. -/
def Node.new : FsEntry → Option Node
  | .file stem ext openable beh =>
    match stem with
    | Option.none => Option.none
    | some name =>
      if openable then
        match ext with
        | Option.none => Option.none
        | some e => some (.file (FileNode.new name e beh))
      else Option.none
  | .dir nm readable createOk entries =>
    match nm with
    | Option.none => Option.none
    | some n =>
      if readable then some (.folder n createOk (Node.newList entries))
      else Option.none
  | .other => Option.none

/-- The `filter_map` over directory entries inside `Node::new`. -/
def Node.newList : List FsEntry → List Node
  | [] => []
  | e :: es =>
    match Node.new e with
    | Option.none => Node.newList es
    | some n => n :: Node.newList es

end

/-- Mirrors `FileNode::lock` (tree.rs lines 34-41): when the node is not yet
locked, `lock_exclusive` is attempted and on success the flag is set; when it
is already locked nothing happens.  The boolean is the `Result`: `false`
models the early `Err` return, which leaves the node unchanged. -/
def FileNode.lock (f : FileNode) : FileNode × Bool :=
  if !f.is_locked then
    if f.beh.lockOk then ({ f with is_locked := true }, true) else (f, false)
  else (f, true)

/-- Mirrors `FileNode::unlock` (tree.rs lines 44-51). -/
def FileNode.unlock (f : FileNode) : FileNode × Bool :=
  if f.is_locked then
    if f.beh.unlockOk then ({ f with is_locked := false }, true) else (f, false)
  else (f, true)

/-- Mirrors `Node::get_full_path` (tree.rs lines 156-161): a file joins
`"{name}.{extension}"` onto the parent path, a folder joins its name. -/
def get_full_path (n : Node) (parentPath : FsPath) : FsPath :=
  match n with
  | .file f => parentPath ++ [f.name ++ "." ++ f.extension]
  | .folder nm _ _ => parentPath ++ [nm]

mutual

/-- Number of nodes in a tree, the measure for the explicit-stack loops. -/
def Node.weight : Node → Nat
  | .file _ => 1
  | .folder _ _ cs => 1 + Node.weightList cs

/-- Total weight of a list of nodes. -/
def Node.weightList : List Node → Nat
  | [] => 0
  | c :: cs => Node.weight c + Node.weightList cs

end

/-- Total weight of the nodes on a work stack. -/
def stackWeight (stack : List (Node × FsPath)) : Nat :=
  (stack.map fun q => Node.weight q.1).sum

theorem nodeWeightList_eq_sum (cs : List Node) :
    Node.weightList cs = (cs.map Node.weight).sum := by
  induction cs with
  | nil => simp [Node.weightList]
  | cons c cs ih => simp [Node.weightList, ih]

theorem stackWeight_push_foldl (cs : List Node) (p : FsPath)
    (acc : List (Node × FsPath)) :
    stackWeight (cs.foldl (fun s c => (c, p) :: s) acc)
      = Node.weightList cs + stackWeight acc := by
  induction cs generalizing acc with
  | nil => simp [Node.weightList]
  | cons c cs ih =>
    simp only [List.foldl_cons, ih, Node.weightList]
    simp [stackWeight]
    omega

/-- Mirrors the `while let Some(..) = stack.pop()` loop of
`Node::prepare_stack` (copyable.rs lines 66-104).  The head of the list is
the top of the stack (the end of the Rust `Vec`); a popped file node is
appended to the files stack together with its destination path; a popped
folder has its destination directory created (`createOk` false models a
failing `create_dir_all`, whose error the `?` operator propagates, aborting
the whole preparation) and its children pushed.  The second component
returns the directories created so far, a side effect that survives an
abort. -/
def prepareLoop : List (Node × FsPath) → List (FileNode × FsPath) → List FsPath →
    Except Unit (List (FileNode × FsPath)) × List FsPath
  | [], files, dirs => (.ok files, dirs)
  | (n, destPath) :: rest, files, dirs =>
    let fullPath := get_full_path n destPath
    match n with
    | .file f => prepareLoop rest (files ++ [(f, fullPath)]) dirs
    | .folder _ createOk children =>
      if createOk then
        prepareLoop (children.foldl (fun s c => (c, fullPath) :: s) rest) files
          (dirs ++ [fullPath])
      else (.error (), dirs)
termination_by stack _ _ => stackWeight stack
decreasing_by
  · simp [stackWeight, Node.weight]
  · rw [stackWeight_push_foldl]
    simp [stackWeight, Node.weight]

/-- The stack initialisation at the top of `Node::prepare_stack` (copyable.rs
lines 68-81): with `into` the stack starts from the node itself, otherwise
from the children of a folder node (a non-folder contributes nothing).  The
reversal makes the head of the Lean list the end of the Rust `Vec`, the
element `pop` takes first. -/
def prepare_stack_init (root : Node) (destination : FsPath) (into : Bool) :
    List (Node × FsPath) :=
  if into then [(root, destination)]
  else
    match root with
    | .folder _ _ children => (children.map (fun c => (c, destination))).reverse
    | _ => []

/-- Mirrors `Node::prepare_stack`: the resulting file stack, plus the
destination directories created along the way. -/
def prepare_stack (root : Node) (destination : FsPath) (into : Bool) :
    Except Unit (List (FileNode × FsPath)) × List FsPath :=
  prepareLoop (prepare_stack_init root destination into) [] []

/-- In the per-file closure of `Node::copy` (copyable.rs lines 165-208): the
file is opened for writing exactly when `handle_copy_option` answered
`Ok(true)` and the subsequent `open_options.open(full_path)` succeeded. -/
def jobWritten (option : CopyTypesOptions) (f : FileNode) : Bool :=
  match handle_copy_option option f.beh.destExists f.beh.srcMtime f.beh.destMtime with
  | .ok (true, _) => f.beh.openOk
  | _ => false

/-- A file contributes to `copied_files` exactly when it was opened for
writing and `std::io::copy` succeeded. -/
def jobCopied (option : CopyTypesOptions) (f : FileNode) : Bool :=
  jobWritten option f && f.beh.copyOk

/-- Errors `Tree::copy` and `Node::copy` can surface. -/
inductive CopyError where
  /-- `ErrorKind::AlreadyExists`, "Destination folder is not empty". -/
  | destinationNotEmpty
  /-- The `read_dir()?` inside the emptiness check failed. -/
  | destinationReadDir
  /-- `self.src_root.lock()?` failed. -/
  | lockFailed
  /-- `create_dir_all` failed inside `prepare_stack`. -/
  | createDirFailed
  /-- `self.src_root.unlock()?` failed. -/
  | unlockFailed
  deriving Repr, DecidableEq

/-- Result of a copy call together with its destination-side effects:
`createdDirs` are the directories `create_dir_all` was called on,
`writtenFiles` the destination files opened for writing. -/
structure CopyOutcome where
  result : Except CopyError (List FsPath)
  createdDirs : List FsPath
  writtenFiles : List FsPath

/-- Mirrors `Node::copy` (copyable.rs lines 148-219): prepare the stack
(propagating its error), return an empty list when `only_folders`, otherwise
run the per-file phase; the rayon `par_iter` collecting into the mutex-held
vector is modelled by a sequential `filterMap`, one linearisation of it
(the `Arc::into_inner` failure case is unreachable once the fan-out is
done and is not modelled). -/
def nodeCopy (root : Node) (destination : FsPath) (into onlyFolders : Bool)
    (option : CopyTypesOptions) : CopyOutcome :=
  match prepare_stack root destination into with
  | (.error _, dirs) => ⟨.error .createDirFailed, dirs, []⟩
  | (.ok files, dirs) =>
    if onlyFolders then ⟨.ok [], dirs, []⟩
    else
      ⟨.ok (files.filterMap fun fp =>
          if jobCopied option fp.1 then some fp.2 else Option.none),
       dirs,
       files.filterMap fun fp =>
          if jobWritten option fp.1 then some fp.2 else Option.none⟩

mutual

/-- Mirrors `Node::lock` (tree.rs lines 141-146) together with
`FolderNode::lock`: every file in the subtree is locked, aborting at the
first file whose OS lock fails (the files locked so far stay locked). -/
def lockNode : Node → Node × Bool
  | .file f =>
    let r := f.lock
    (.file r.1, r.2)
  | .folder nm c children =>
    let r := lockNodeList children
    (.folder nm c r.1, r.2)

/-- Lock a list of sibling nodes in order, stopping at the first failure. -/
def lockNodeList : List Node → List Node × Bool
  | [] => ([], true)
  | n :: ns =>
    let r := lockNode n
    if r.2 then
      let rs := lockNodeList ns
      (r.1 :: rs.1, rs.2)
    else (r.1 :: ns, false)

end

mutual

/-- Mirrors `Node::unlock` (tree.rs lines 149-154) together with
`FolderNode::unlock`. -/
def unlockNode : Node → Node × Bool
  | .file f =>
    let r := f.unlock
    (.file r.1, r.2)
  | .folder nm c children =>
    let r := unlockNodeList children
    (.folder nm c r.1, r.2)

/-- Unlock a list of sibling nodes in order, stopping at the first failure. -/
def unlockNodeList : List Node → List Node × Bool
  | [] => ([], true)
  | n :: ns =>
    let r := unlockNode n
    if r.2 then
      let rs := unlockNodeList ns
      (r.1 :: rs.1, rs.2)
    else (r.1 :: ns, false)

end

/-- Mirrors `Tree` from src/src/content_tree/tree.rs (lines 165-170); the
name `Tree` itself is taken by the ambient library. -/
structure ContentTree where
  src_root : Node
  dest_root_path : FsPath

/-- What the destination root path looks like when `Tree::copy` inspects it:
`present` is `dest_root_path.exists()`, `isDir` is `is_dir()`, `readDirOk`
whether `read_dir()` succeeds, and `hasNoEntries` whether
`read_dir()?.next().is_none()`. -/
structure DestRootState where
  present : Bool
  isDir : Bool
  readDirOk : Bool
  hasNoEntries : Bool
  deriving Repr, DecidableEq

/-- The emptiness expression of `Tree::copy` (copyable.rs lines 33-35):
`!exists || (is_dir && read_dir()?.next().is_none())`, with the `?`
propagating a failed `read_dir`. -/
def destIsEmpty (dest : DestRootState) : Except CopyError Bool :=
  if !dest.present then .ok true
  else if dest.isDir then
    if dest.readDirOk then .ok dest.hasNoEntries else .error .destinationReadDir
  else .ok false

/-- The body of `Tree::copy` after the precondition check (copyable.rs lines
46-58): lock the source root, run `Node::copy`, unlock, and return the copy
result unless the unlock itself failed. -/
def treeCopyBody (t : ContentTree) (into onlyFolders : Bool) (option : CopyTypesOptions) :
    CopyOutcome :=
  let locked := lockNode t.src_root
  if locked.2 then
    let out := nodeCopy locked.1 t.dest_root_path into onlyFolders option
    let unlocked := unlockNode locked.1
    if unlocked.2 then out
    else ⟨.error .unlockFailed, out.createdDirs, out.writtenFiles⟩
  else ⟨.error .lockFailed, [], []⟩

/-- Mirrors `Tree::copy` (copyable.rs lines 25-59): when the `None` option is
set, the destination must be absent or an empty directory, otherwise the
call fails with `AlreadyExists` ("Destination folder is not empty") before
locking or copying anything. -/
def treeCopy (t : ContentTree) (dest : DestRootState) (into onlyFolders : Bool)
    (option : CopyTypesOptions) : CopyOutcome :=
  if option = CopyTypesOptions.none then
    match destIsEmpty dest with
    | .error e => ⟨.error e, [], []⟩
    | .ok isEmpty =>
      if !isEmpty then ⟨.error .destinationNotEmpty, [], []⟩
      else treeCopyBody t into onlyFolders option
  else treeCopyBody t into onlyFolders option

/-- Claim C3: with the `None` option, a destination root that exists and is
not an empty directory makes `Tree::copy` fail with the `AlreadyExists`
"Destination folder is not empty" error before creating any directory or
writing any file, while an absent or empty-directory destination passes the
precondition check. -/
theorem treeCopy_none_precondition (t : ContentTree) (dest : DestRootState)
    (into onlyFolders : Bool) :
    (dest.present = true →
      dest.isDir = false ∨ (dest.readDirOk = true ∧ dest.hasNoEntries = false) →
      treeCopy t dest into onlyFolders .none
        = ⟨.error .destinationNotEmpty, [], []⟩) ∧
    (dest.present = false ∨
        (dest.isDir = true ∧ dest.readDirOk = true ∧ dest.hasNoEntries = true) →
      destIsEmpty dest = .ok true) := by
  obtain ⟨pres, isDir, rdOk, noEntries⟩ := dest
  constructor
  · rintro rfl (rfl | ⟨rfl, rfl⟩) <;>
      simp [treeCopy, destIsEmpty]
  · rintro (rfl | ⟨rfl, rfl, rfl⟩) <;>
      simp [destIsEmpty]

/-- Witness for C3: a present, non-empty destination directory makes the
copy fail up front; the hypotheses of the claim theorem are discharged on
this concrete state. -/
theorem treeCopy_none_precondition_witness :
    ((⟨true, true, true, false⟩ : DestRootState).present = true ∧
      ((⟨true, true, true, false⟩ : DestRootState).readDirOk = true ∧
        (⟨true, true, true, false⟩ : DestRootState).hasNoEntries = false)) ∧
    treeCopy
        ⟨Node.file ⟨"a", "txt", false, ⟨Option.none, false, Option.none, true, true, true, true⟩⟩,
          ["dst"]⟩
        ⟨true, true, true, false⟩ false false .none
      = ⟨.error .destinationNotEmpty, [], []⟩ :=
  ⟨⟨rfl, rfl, rfl⟩,
    (treeCopy_none_precondition _ _ _ _).1 rfl (Or.inr ⟨rfl, rfl⟩)⟩

theorem prepare_stack_file_root (f : FileNode) (destination : FsPath) :
    prepare_stack (.file f) destination false = (.ok [], []) := by
  simp [prepare_stack, prepare_stack_init, prepareLoop]

/-- Claim C10: when the source root of a tree is a single file and copy runs
with `into = false`, `prepare_stack` starts from an empty stack, so
`Node::copy` returns `Ok` with an empty copied-files list, creates no
directory and writes no file, for every conflict mode; at the `Tree::copy`
level no directory is created and no file written either, and whenever that
call returns `Ok` its list is also empty. -/
theorem nodeCopy_file_root (f : FileNode) (destination : FsPath)
    (onlyFolders : Bool) (option : CopyTypesOptions) (dest : DestRootState) :
    nodeCopy (.file f) destination false onlyFolders option = ⟨.ok [], [], []⟩ ∧
    (treeCopy ⟨.file f, destination⟩ dest false onlyFolders option).createdDirs = [] ∧
    (treeCopy ⟨.file f, destination⟩ dest false onlyFolders option).writtenFiles = [] ∧
    (∀ l, (treeCopy ⟨.file f, destination⟩ dest false onlyFolders option).result = .ok l →
      l = []) := by
  have hnode : nodeCopy (.file f) destination false onlyFolders option = ⟨.ok [], [], []⟩ := by
    cases onlyFolders <;> simp [nodeCopy, prepare_stack_file_root]
  refine ⟨hnode, ?_⟩
  have hbody : ∀ t : ContentTree, t = ⟨.file f, destination⟩ →
      (treeCopyBody t false onlyFolders option).createdDirs = [] ∧
      (treeCopyBody t false onlyFolders option).writtenFiles = [] ∧
      (∀ l, (treeCopyBody t false onlyFolders option).result = .ok l → l = []) := by
    rintro t rfl
    simp only [treeCopyBody, lockNode]
    rcases hl : FileNode.lock f with ⟨f1, ok⟩
    cases ok
    · simp
    · have hnode1 : nodeCopy (.file f1) destination false onlyFolders option
          = ⟨.ok [], [], []⟩ := by
        cases onlyFolders <;> simp [nodeCopy, prepare_stack_file_root]
      simp only [hnode1]
      rcases hu : unlockNode (.file f1) with ⟨n2, ok2⟩
      cases ok2 <;> simp_all
  unfold treeCopy
  by_cases hopt : option = CopyTypesOptions.none
  · simp only [if_pos hopt]
    rcases hd : destIsEmpty dest with e | b
    · simp
    · cases b
      · simp
      · simpa using hbody _ rfl
  · simp only [if_neg hopt]
    exact hbody _ rfl

/-- A concrete unlocked file node whose OS calls all succeed. -/
def plainFile : FileNode :=
  ⟨"a", "txt", false, ⟨Option.none, false, Option.none, true, true, true, true⟩⟩

/-- Witness for C10: the tree-level conclusion applied at a concrete
single-file tree, the hypothesis discharged by evaluation. -/
theorem nodeCopy_file_root_witness :
    (treeCopy ⟨Node.file plainFile, ["dst"]⟩ ⟨false, false, false, false⟩ false false
        .replace).result = .ok [] ∧ ([] : List FsPath) = [] := by
  have h : (treeCopy ⟨Node.file plainFile, ["dst"]⟩ ⟨false, false, false, false⟩ false false
      .replace).result = .ok [] := by
    simp [treeCopy, treeCopyBody, lockNode, unlockNode, FileNode.lock, FileNode.unlock,
      nodeCopy, prepare_stack_file_root, plainFile]
  exact ⟨h,
    (nodeCopy_file_root plainFile ["dst"] false .replace ⟨false, false, false, false⟩).2.2.2 [] h⟩

theorem filterMap_if_eq_filter_map {α β : Type} (p : α → Bool) (g : α → β) (l : List α) :
    (l.filterMap fun a => if p a then some (g a) else Option.none)
      = (l.filter p).map g := by
  induction l with
  | nil => rfl
  | cons a l ih =>
    by_cases h : p a <;> simp [List.filterMap_cons, List.filter_cons, h, ih]

/-- Claim C5: the list `Node::copy` returns contains exactly the destination
paths of the files actually written: a file the policy skipped or whose open
or byte copy failed contributes no entry, so the result is never just the
full source file list. -/
theorem nodeCopy_result_exactly_written (root : Node) (destination : FsPath) (into : Bool)
    (option : CopyTypesOptions) (files : List (FileNode × FsPath)) (copied : List FsPath)
    (hprep : (prepare_stack root destination into).1 = .ok files)
    (hout : (nodeCopy root destination into false option).result = .ok copied) :
    copied = ((files.filter fun fp => jobCopied option fp.1).map Prod.snd) ∧
    (∀ p, p ∈ copied ↔ ∃ fp ∈ files, jobCopied option fp.1 = true ∧ fp.2 = p) ∧
    ((files.map Prod.snd).Nodup →
      ∀ fp ∈ files, jobCopied option fp.1 = false → fp.2 ∉ copied) := by
  have hcopied : copied = ((files.filter fun fp => jobCopied option fp.1).map Prod.snd) := by
    rcases hpr : prepare_stack root destination into with ⟨r, dirs⟩
    rw [hpr] at hprep
    simp only at hprep
    subst hprep
    rw [nodeCopy, hpr] at hout
    simp only [Bool.false_eq_true, if_false] at hout
    rw [← filterMap_if_eq_filter_map]
    exact (Except.ok.injEq _ _ ▸ hout.symm :)
  refine ⟨hcopied, ?_, ?_⟩
  · intro p
    subst hcopied
    simp only [List.mem_map, List.mem_filter]
    constructor
    · rintro ⟨fp, ⟨hmem, hjob⟩, hp⟩
      exact ⟨fp, hmem, hjob, hp⟩
    · rintro ⟨fp, hmem, hjob, hp⟩
      exact ⟨fp, ⟨hmem, hjob⟩, hp⟩
  · intro hnodup fp hmem hjob hin
    subst hcopied
    rcases List.mem_map.mp hin with ⟨fq, hfq, hq⟩
    have hqmem : fq ∈ files := (List.mem_filter.mp hfq).1
    have hqjob : jobCopied option fq.1 = true := (List.mem_filter.mp hfq).2
    have : fq = fp := List.inj_on_of_nodup_map hnodup hqmem hmem hq
    rw [this] at hqjob
    rw [hqjob] at hjob
    exact Bool.true_eq_false.mp hjob

/-- A file whose destination already exists: `Complete` skips it. -/
def c5Skip : FileNode :=
  ⟨"s", "txt", false, ⟨Option.none, true, Option.none, true, true, true, true⟩⟩

/-- A file whose destination is absent and whose open and byte copy succeed. -/
def c5Copied : FileNode :=
  ⟨"w", "txt", false, ⟨Option.none, false, Option.none, true, true, true, true⟩⟩

/-- A two-file source folder for the C5 witness. -/
def c5Root : Node := .folder "r" true [.file c5Copied, .file c5Skip]

/-- Witness for C5: on a concrete two-file tree under `Complete`, the
returned list holds exactly the destination path of the written file, and
the path of the skipped file is absent; all hypotheses are discharged by evaluation. -/
theorem nodeCopy_result_exactly_written_witness :
    (prepare_stack c5Root ["d"] false).1
      = .ok [(c5Skip, ["d", "s.txt"]), (c5Copied, ["d", "w.txt"])] ∧
    (nodeCopy c5Root ["d"] false false .complete).result = .ok [["d", "w.txt"]] ∧
    (["d", "s.txt"] : FsPath) ∉ [(["d", "w.txt"] : FsPath)] := by
  have h1 : (prepare_stack c5Root ["d"] false).1
      = .ok [(c5Skip, ["d", "s.txt"]), (c5Copied, ["d", "w.txt"])] := by
    simp [prepare_stack, prepare_stack_init, prepareLoop, get_full_path, c5Root, c5Skip,
      c5Copied]
  have h2 : (nodeCopy c5Root ["d"] false false .complete).result = .ok [["d", "w.txt"]] := by
    rw [nodeCopy, prepare_stack]
    simp [prepare_stack_init, prepareLoop, get_full_path, c5Root, c5Skip, c5Copied,
      jobCopied, jobWritten, handle_copy_option]
  refine ⟨h1, h2, ?_⟩
  exact (nodeCopy_result_exactly_written c5Root ["d"] false .complete _ _ h1 h2).2.2
    (by decide) (c5Skip, ["d", "s.txt"]) (by decide) (by decide)

theorem node_newList_skips_failed (e : FsEntry) (he : Node.new e = Option.none)
    (es₁ es₂ : List FsEntry) :
    Node.newList (es₁ ++ e :: es₂) = Node.newList (es₁ ++ es₂) := by
  induction es₁ with
  | nil => simp [Node.newList, he]
  | cons a es₁ ih =>
    cases h : Node.new a <;> simp [Node.newList, h, ih]

/-- Claim C9: building a node from an extensionless file path gives `none`
(`extension()?` bails out), and inside a folder such a file is silently
dropped from the children, so the two builds produce equal trees; every
engine that runs on the built tree, locking, copying or verifying, is a
function of that tree, hence never touches the omitted file. -/
theorem node_new_extensionless_file (s : String) (o : Bool) (b : FileBeh)
    (nm : String) (rd cOk : Bool) (es₁ es₂ : List FsEntry) :
    Node.new (.file (some s) Option.none o b) = Option.none ∧
    Node.newList (es₁ ++ .file (some s) Option.none o b :: es₂)
      = Node.newList (es₁ ++ es₂) ∧
    Node.new (.dir (some nm) rd cOk (es₁ ++ .file (some s) Option.none o b :: es₂))
      = Node.new (.dir (some nm) rd cOk (es₁ ++ es₂)) := by
  have hfile : Node.new (.file (some s) Option.none o b) = Option.none := by
    cases o <;> simp [Node.new]
  have hlist := node_newList_skips_failed _ hfile es₁ es₂
  refine ⟨hfile, hlist, ?_⟩
  cases rd <;> simp [Node.new, hlist]

/-- Claim C4 (code-bug evidence): a directory containing a single file whose
name has no extension builds to `Some` folder with that child silently
omitted, although the comment on the function says an error in any child
returns `None` and the spec calls the build all-or-nothing. -/
theorem node_new_not_all_or_nothing :
    Node.new (.dir (some "a") true true
        [.file (some "b") Option.none true
          ⟨Option.none, false, Option.none, true, true, true, true⟩])
      = some (.folder "a" true []) := by
  simp [Node.new, Node.newList]

/-- Claim C7: for a file node, double lock and double unlock are successful
no-ops, the lock flag never moves backwards (lock never unlocks, unlock
never locks), and a failed OS call leaves the node unchanged, so the flag
only ever transitions unlocked to locked to unlocked. -/
theorem fileNode_lock_unlock_invariants (f : FileNode) :
    (f.is_locked = true → f.lock = (f, true)) ∧
    (f.is_locked = false → f.unlock = (f, true)) ∧
    (f.is_locked = true → (f.lock).1.is_locked = true) ∧
    (f.is_locked = false → (f.unlock).1.is_locked = false) ∧
    ((f.lock).2 = false → (f.lock).1 = f) ∧
    ((f.unlock).2 = false → (f.unlock).1 = f) := by
  obtain ⟨nm, ext, lk, beh⟩ := f
  refine ⟨?_, ?_, ?_, ?_, ?_, ?_⟩ <;>
    cases lk <;>
      simp [FileNode.lock, FileNode.unlock] <;>
        cases hbl : beh.lockOk <;>
          cases hbu : beh.unlockOk <;>
            simp_all [FileNode.lock, FileNode.unlock]

/-- A concrete file node that is currently locked. -/
def lockedFile : FileNode :=
  ⟨"a", "txt", true, ⟨Option.none, false, Option.none, true, true, true, true⟩⟩

/-- Witness for C7: the no-op cases applied at concrete locked and unlocked
nodes. -/
theorem fileNode_lock_unlock_invariants_witness :
    (lockedFile.is_locked = true ∧ lockedFile.lock = (lockedFile, true)) ∧
    (plainFile.is_locked = false ∧ plainFile.unlock = (plainFile, true)) :=
  ⟨⟨rfl, (fileNode_lock_unlock_invariants lockedFile).1 rfl⟩,
    ⟨rfl, (fileNode_lock_unlock_invariants plainFile).2.1 rfl⟩⟩

/-- Mirrors `IgnoreFlag` from src/src/path_content.rs (lines 26-32). -/
inductive IgnoreFlag where
  | files
  | directories
  | none
  deriving Repr, DecidableEq

/-- The errors `index_entries` can return, each an `ErrorKind::Other` with
the quoted message in the source. -/
inductive IndexErr where
  /-- "The path content has already been indexed". -/
  | alreadyIndexed
  /-- "Error reading directory content" (failed `read_dir` or a failed
  directory entry inside it). -/
  | readDirError
  /-- "Error reading file metadata". -/
  | metadataError
  /-- "Error processing source path" (neither file nor directory). -/
  | notAPathType
  deriving Repr, DecidableEq

/-- Mirrors `PathContent` from src/src/path_content.rs (lines 8-24). -/
structure PathContent where
  entries : Nat
  size : Nat
  list_of_dirs : List FsPath
  list_of_files : List FsPath
  indexed : Bool
  deriving Repr, DecidableEq

/-- Mirrors `PathContent::new`. -/
def PathContent.new : PathContent := ⟨0, 0, [], [], false⟩

/-- A filesystem entry as the `index_entries` traversal observes it: a file
carries its name, whether its metadata read succeeds and its byte length; a
directory carries its name, whether `read_dir` on it succeeds, and its
entries; `badEntry` is a directory entry whose read yields `Err`; `other` is
a path that is neither file nor directory. -/
inductive Item where
  | file : String → Bool → Nat → Item
  | dir : String → Bool → List Item → Item
  | badEntry : Item
  | other : String → Item

mutual

/-- Number of entries in an item, the measure for the indexing loop. -/
def Item.weight : Item → Nat
  | .dir _ _ es => 1 + Item.weightList es
  | _ => 1

/-- Total weight of a list of items. -/
def Item.weightList : List Item → Nat
  | [] => 0
  | e :: es => Item.weight e + Item.weightList es

end

/-- Whether a directory entry read failed. -/
def Item.isBad : Item → Bool
  | .badEntry => true
  | _ => false

/-- The file name of an entry, used to form the path `entry.path()`. -/
def Item.entryName : Item → String
  | .file n _ _ => n
  | .dir n _ _ => n
  | .other n => n
  | .badEntry => ""

/-- Total weight of the items on the exploration list. -/
def itemStackWeight (stack : List (FsPath × Item)) : Nat :=
  (stack.map fun q => Item.weight q.2).sum

theorem itemWeightList_eq_sum (es : List Item) :
    Item.weightList es = (es.map Item.weight).sum := by
  induction es with
  | nil => simp [Item.weightList]
  | cons e es ih => simp [Item.weightList, ih]

theorem itemStackWeight_push_foldl (es : List Item) (g : Item → FsPath × Item)
    (hg : ∀ e, (g e).2 = e) (acc : List (FsPath × Item)) :
    itemStackWeight (es.foldl (fun s e => g e :: s) acc)
      = Item.weightList es + itemStackWeight acc := by
  induction es generalizing acc with
  | nil => simp [Item.weightList]
  | cons e es ih =>
    simp only [List.foldl_cons, ih, Item.weightList]
    simp [itemStackWeight, hg]
    omega

/-- Mirrors the `while let Some(item) = list_to_explore.pop()` loop of
`PathContent::index_entries` (path_content.rs lines 77-126).  A popped
directory is recorded (unless directories are ignored) before its contents
are read; a failed `read_dir` or a failed directory entry returns the
"Error reading directory content" error; a popped file is skipped when files
are ignored, otherwise its metadata is read (failure is fatal for the call),
its size added, its path recorded; anything else is the "Error processing
source path" error.  The head of the list is the end of the Rust `Vec`. -/
def indexLoop (ignore : IgnoreFlag) :
    PathContent → List (FsPath × Item) → PathContent × Option IndexErr
  | pc, [] => (pc, Option.none)
  | pc, (p, item) :: rest =>
    match item with
    | .dir _ readOk entries =>
      let pc1 :=
        if ignore = IgnoreFlag.directories then pc
        else { pc with list_of_dirs := pc.list_of_dirs ++ [p], entries := pc.entries + 1 }
      if readOk then
        if entries.any Item.isBad then (pc1, some .readDirError)
        else indexLoop ignore pc1
          (entries.foldl (fun s e => (p ++ [e.entryName], e) :: s) rest)
      else (pc1, some .readDirError)
    | .file _ metaOk len =>
      if ignore = IgnoreFlag.files then indexLoop ignore pc rest
      else if metaOk then
        indexLoop ignore
          { pc with size := pc.size + len,
                    list_of_files := pc.list_of_files ++ [p],
                    entries := pc.entries + 1 } rest
      else (pc, some .metadataError)
    | _ => (pc, some .notAPathType)
termination_by _ stack => itemStackWeight stack
decreasing_by
  · rw [itemStackWeight_push_foldl _ _ (fun e => rfl)]
    simp [itemStackWeight, Item.weight]
  · simp [itemStackWeight, Item.weight]
  · simp [itemStackWeight, Item.weight]

/-- Mirrors `PathContent::index_entries` (path_content.rs lines 45-131):
fails immediately when already indexed, otherwise sets the flag, builds the
initial exploration list (the node itself when `into` or when the root is
not a directory; otherwise the children of the root, read through a
fallible `read_dir` call
with unreadable entries silently dropped by the `filter_map`), and runs the
loop.  The returned state is the content of `&mut self` when the call
returns, also on error. -/
def index_entries (pc : PathContent) (rootPath : FsPath) (root : Item) (into : Bool)
    (ignore : IgnoreFlag) : PathContent × Option IndexErr :=
  if pc.indexed then (pc, some .alreadyIndexed)
  else
    let pc1 := { pc with indexed := true }
    if into then indexLoop ignore pc1 [(rootPath, root)]
    else
      match root with
      | .dir _ readOk entries =>
        if readOk then
          indexLoop ignore pc1
            ((entries.filterMap fun e =>
                if e.isBad then Option.none
                else some (rootPath ++ [e.entryName], e)).reverse)
        else (pc1, some .readDirError)
      | _ => indexLoop ignore pc1 [(rootPath, root)]

theorem indexLoop_entries_invariant (ignore : IgnoreFlag) (pc : PathContent)
    (stack : List (FsPath × Item)) :
    pc.entries = pc.list_of_files.length + pc.list_of_dirs.length →
    ((indexLoop ignore pc stack).1).entries
      = ((indexLoop ignore pc stack).1).list_of_files.length
        + ((indexLoop ignore pc stack).1).list_of_dirs.length := by
  induction pc, stack using indexLoop.induct ignore with
  | case1 pc =>
    intro h
    simpa [indexLoop] using h
  | case2 pc p rest a entries hbad =>
    intro h
    simp only [indexLoop, hbad]
    split_ifs <;> simp [h] <;> omega
  | case3 pc p rest a entries pc1 hbad ih =>
    intro h
    have hinv : pc1.entries = pc1.list_of_files.length + pc1.list_of_dirs.length := by
      unfold pc1
      split_ifs <;> simp [h] <;> omega
    simp only [indexLoop, hbad, Bool.false_eq_true, if_false]
    exact ih hinv
  | case4 pc p rest a readOk entries hro =>
    intro h
    simp only [Bool.not_eq_true] at hro
    subst hro
    simp only [indexLoop, Bool.false_eq_true, if_false]
    split_ifs <;> simp [h] <;> omega
  | case5 pc p rest a metaOk len hig ih =>
    intro h
    subst hig
    simp only [indexLoop, if_true]
    exact ih h
  | case6 pc p rest a len hig ih =>
    intro h
    simp only [indexLoop, hig, Bool.false_eq_true, if_false, if_true]
    apply ih
    simp [h]
    omega
  | case7 pc p rest a metaOk len hig hmo =>
    intro h
    simp only [Bool.not_eq_true] at hmo
    subst hmo
    simpa [indexLoop, hig] using h
  | case8 pc p item rest hnd hnf =>
    intro h
    cases item with
    | dir a r es => exact absurd rfl (hnd a r es)
    | file a m l => exact absurd rfl (hnf a m l)
    | badEntry => simpa [indexLoop] using h
    | other n => simpa [indexLoop] using h

theorem indexLoop_indexed_invariant (ignore : IgnoreFlag) (pc : PathContent)
    (stack : List (FsPath × Item)) :
    ((indexLoop ignore pc stack).1).indexed = pc.indexed := by
  induction pc, stack using indexLoop.induct ignore with
  | case1 pc => simp [indexLoop]
  | case2 pc p rest a entries hbad =>
    simp only [indexLoop, hbad]
    split_ifs <;> simp
  | case3 pc p rest a entries pc1 hbad ih =>
    have hpc1 : pc1.indexed = pc.indexed := by
      unfold pc1
      split_ifs <;> simp
    have hres := ih.trans hpc1
    simp only [indexLoop, hbad, Bool.false_eq_true, if_false]
    simpa using hres
  | case4 pc p rest a readOk entries hro =>
    simp only [Bool.not_eq_true] at hro
    subst hro
    simp only [indexLoop, Bool.false_eq_true, if_false]
    split_ifs <;> simp
  | case5 pc p rest a metaOk len hig ih =>
    subst hig
    simp only [indexLoop, if_true]
    exact ih
  | case6 pc p rest a len hig ih =>
    simp only [indexLoop, hig, Bool.false_eq_true, if_false, if_true]
    rw [ih]
  | case7 pc p rest a metaOk len hig hmo =>
    simp only [Bool.not_eq_true] at hmo
    subst hmo
    simp [indexLoop, hig]
  | case8 pc p item rest hnd hnf =>
    cases item with
    | dir a r es => exact absurd rfl (hnd a r es)
    | file a m l => exact absurd rfl (hnf a m l)
    | badEntry => simp [indexLoop]
    | other n => simp [indexLoop]

theorem index_entries_new_invariant (rootPath : FsPath) (root : Item) (into : Bool)
    (ignore : IgnoreFlag) :
    ((index_entries PathContent.new rootPath root into ignore).1).entries
      = ((index_entries PathContent.new rootPath root into ignore).1).list_of_files.length
        + ((index_entries PathContent.new rootPath root into ignore).1).list_of_dirs.length := by
  rw [index_entries]
  cases into with
  | true =>
    simp only [PathContent.new, Bool.false_eq_true, if_false, if_true]
    exact indexLoop_entries_invariant _ _ _ rfl
  | false =>
    cases root with
    | dir n readOk entries =>
      cases readOk with
      | true =>
        simp only [PathContent.new, Bool.false_eq_true, if_false, if_true]
        exact indexLoop_entries_invariant _ _ _ rfl
      | false =>
        simp [PathContent.new]
    | file n metaOk len =>
      simp only [PathContent.new, Bool.false_eq_true, if_false]
      exact indexLoop_entries_invariant _ _ _ rfl
    | badEntry =>
      simp only [PathContent.new, Bool.false_eq_true, if_false]
      exact indexLoop_entries_invariant _ _ _ rfl
    | other n =>
      simp only [PathContent.new, Bool.false_eq_true, if_false]
      exact indexLoop_entries_invariant _ _ _ rfl

/-- Claim C6: for every tree shape and every ignore flag, when
`index_entries` on a fresh `PathContent` completes successfully, the entry
counter equals the number of recorded files plus the number of recorded
directories. -/
theorem index_entries_entry_count (rootPath : FsPath) (root : Item) (into : Bool)
    (ignore : IgnoreFlag)
    (hok : (index_entries PathContent.new rootPath root into ignore).2 = Option.none) :
    ((index_entries PathContent.new rootPath root into ignore).1).entries
      = ((index_entries PathContent.new rootPath root into ignore).1).list_of_files.length
        + ((index_entries PathContent.new rootPath root into ignore).1).list_of_dirs.length :=
  index_entries_new_invariant rootPath root into ignore

/-- A small concrete tree for the C6 witness: a root with one file and one
empty subdirectory. -/
def c6Root : Item := .dir "r" true [.file "a" true 3, .dir "s" true []]

/-- Witness for C6: on a concrete tree the call succeeds and the claim
theorem applies, its hypothesis discharged by evaluation. -/
theorem index_entries_entry_count_witness :
    (index_entries PathContent.new ["r"] c6Root true .none).2 = Option.none ∧
    ((index_entries PathContent.new ["r"] c6Root true .none).1).entries
      = ((index_entries PathContent.new ["r"] c6Root true .none).1).list_of_files.length
        + ((index_entries PathContent.new ["r"] c6Root true .none).1).list_of_dirs.length := by
  have hok : (index_entries PathContent.new ["r"] c6Root true .none).2 = Option.none := by
    simp [index_entries, indexLoop, PathContent.new, c6Root, Item.entryName, Item.isBad]
  exact ⟨hok, index_entries_entry_count ["r"] c6Root true .none hok⟩

/-- Claim C8: calling `index_entries` again on an instance that has already
gone through a call fails with the already-indexed error, and the failing
call returns the state unchanged, so `entries`, `size`, `list_of_files` and
`list_of_dirs` keep their values. -/
theorem index_entries_second_call_fails (pc : PathContent) (rootPath : FsPath) (root : Item)
    (into : Bool) (ignore : IgnoreFlag) (rootPath2 : FsPath) (root2 : Item)
    (into2 : Bool) (ignore2 : IgnoreFlag) :
    index_entries (index_entries pc rootPath root into ignore).1 rootPath2 root2 into2 ignore2
      = ((index_entries pc rootPath root into ignore).1, some .alreadyIndexed) := by
  have hidx : ((index_entries pc rootPath root into ignore).1).indexed = true := by
    rw [index_entries]
    by_cases h : pc.indexed = true
    · simp [h]
    · simp only [h, Bool.false_eq_true, if_false]
      cases into with
      | true =>
        simp only [if_true]
        rw [indexLoop_indexed_invariant]
      | false =>
        cases root with
        | dir n readOk entries =>
          cases readOk with
          | true =>
            simp only [Bool.false_eq_true, if_false, if_true]
            rw [indexLoop_indexed_invariant]
          | false => simp
        | file n metaOk len =>
          simp only [Bool.false_eq_true, if_false]
          rw [indexLoop_indexed_invariant]
        | badEntry =>
          simp only [Bool.false_eq_true, if_false]
          rw [indexLoop_indexed_invariant]
        | other n =>
          simp only [Bool.false_eq_true, if_false]
          rw [indexLoop_indexed_invariant]
  conv_lhs => rw [index_entries]
  simp [hidx]

/-- The observable phases a move run performs, in order. -/
inductive MoveAction where
  | indexSource
  | createDestDir
  | copyDirsPhase
  | copyFilesPhase
  | verifyPhase
  | removeFilesPhase
  | removeDirsPhase
  deriving Repr, DecidableEq

/-- Oracle for everything the move orchestrators observe from their
collaborators: the rayon pool build, the user confirmation, the indexing
result (`entries`, directory and file lists from `PathContent`), the
destination checks, and the results of the copy, verify and remove helpers
(`copyErrors` is the content of `copy_list_of_errors` when it is unwrapped
after the copy-and-verify phase). -/
structure MoveEnv where
  poolOk : Bool
  confirmContinue : Bool
  indexOk : Bool
  entries : Nat
  list_of_dirs : List FsPath
  list_of_files : List FsPath
  srcPath : FsPath
  srcIsDir : Bool
  destExists : Bool
  destIsDir : Bool
  destReadOk : Bool
  destCount : Nat
  createDestOk : Bool
  copyDirsOk : Bool
  copyErrors : List String
  copyUnwrapOk : Bool
  removeFilesOk : Bool
  removeUnwrapOk : Bool
  deriving Repr, DecidableEq

/-- Remove phase shared by both orchestrators (src/src/commands/file/move.rs
lines 169-192, src/src/commands/move.rs lines 159-181): `files_ok` starts
false and becomes the `remove_files` result only when there are files; the
source path is appended to the directory list (in the file-module version
only when the source is a directory and not already listed); `remove_dirs`
runs only when `files_ok` holds and the directory list is non-empty. -/
def moveRemovePhase (env : MoveEnv) (requireSrcIsDir : Bool) (acc : List MoveAction) :
    List MoveAction :=
  let filesOk := if env.list_of_files.isEmpty then false else env.removeFilesOk
  let acc := acc ++ (if env.list_of_files.isEmpty then [] else [.removeFilesPhase])
  let dirs2 :=
    if (!requireSrcIsDir || env.srcIsDir) && !env.list_of_dirs.contains env.srcPath then
      env.list_of_dirs ++ [env.srcPath]
    else env.list_of_dirs
  if filesOk && !dirs2.isEmpty then acc ++ [.removeDirsPhase] else acc

/-- Copy phase of src/src/commands/file/move.rs (lines 108-167): `dirs_ok`
is true when there are no directories, otherwise the `copy_dirs` result;
`copy_files` and `verify_copy` run when `dirs_ok` holds and there are files;
then the error collection is unwrapped (failure aborts) and a NON-EMPTY
ERROR LIST ABORTS THE MOVE before any removal. -/
def moveFileCopyPhase (env : MoveEnv) (acc : List MoveAction) : List MoveAction :=
  let dirsOk := if env.list_of_dirs.isEmpty then true else env.copyDirsOk
  let acc := acc ++ (if env.list_of_dirs.isEmpty then [] else [.copyDirsPhase])
  let acc := acc ++
    (if dirsOk && !env.list_of_files.isEmpty then [.copyFilesPhase, .verifyPhase] else [])
  if !env.copyUnwrapOk then acc
  else if !env.copyErrors.isEmpty then acc
  else moveRemovePhase env true acc

/-- Mirrors `execute` from src/src/commands/file/move.rs (lines 40-221) as
the list of phases it performs, driven by the environment oracle. -/
def executeMoveFile (env : MoveEnv) : List MoveAction :=
  if !env.poolOk && !env.confirmContinue then []
  else if !env.indexOk then [.indexSource]
  else if env.entries = 0 then [.indexSource]
  else if env.destExists then
    if env.destIsDir then
      if !env.destReadOk then [.indexSource]
      else if env.destCount > 0 then [.indexSource]
      else moveFileCopyPhase env [.indexSource]
    else [.indexSource]
  else if env.srcIsDir then
    if env.createDestOk then moveFileCopyPhase env [.indexSource, .createDestDir]
    else [.indexSource]
  else moveFileCopyPhase env [.indexSource]

/-- Copy phase of src/src/commands/move.rs (lines 104-157): `dirs_ok` starts
FALSE and stays false when there are no directories; after the unwrap the
errors are only PRINTED, the function does not return, and the remove phase
follows unconditionally. -/
def moveOldCopyPhase (env : MoveEnv) (acc : List MoveAction) : List MoveAction :=
  let dirsOk := if env.list_of_dirs.isEmpty then false else env.copyDirsOk
  let acc := acc ++ (if env.list_of_dirs.isEmpty then [] else [.copyDirsPhase])
  let acc := acc ++
    (if dirsOk && !env.list_of_files.isEmpty then [.copyFilesPhase, .verifyPhase] else [])
  if !env.copyUnwrapOk then acc
  else moveRemovePhase env false acc

/-- Mirrors `execute_move` from src/src/commands/move.rs (lines 40-210) as
the list of phases it performs.  The destination check reads the directory
whenever the path exists (no `is_dir` test) and creates it whenever it does
not. -/
def executeMoveOld (env : MoveEnv) : List MoveAction :=
  if !env.poolOk && !env.confirmContinue then []
  else if !env.indexOk then [.indexSource]
  else if env.entries = 0 then [.indexSource]
  else if env.destExists then
    if !env.destReadOk then [.indexSource]
    else if env.destCount > 0 then [.indexSource]
    else moveOldCopyPhase env [.indexSource]
  else if env.createDestOk then moveOldCopyPhase env [.indexSource, .createDestDir]
  else [.indexSource]

theorem moveFileCopyPhase_aborts (env : MoveEnv) (acc : List MoveAction)
    (hne : env.copyErrors.isEmpty = false) :
    moveFileCopyPhase env acc
      = (acc ++ (if env.list_of_dirs.isEmpty then [] else [.copyDirsPhase]))
        ++ (if (if env.list_of_dirs.isEmpty then true else env.copyDirsOk)
              && !env.list_of_files.isEmpty then [.copyFilesPhase, .verifyPhase]
            else []) := by
  unfold moveFileCopyPhase
  simp [hne, ite_self]

/-- The newer orchestrator does satisfy the gate: with a non-empty copy
error collection, no remove phase ever runs in the file-module move. -/
theorem executeMoveFile_remove_gate (env : MoveEnv) (h : env.copyErrors ≠ []) :
    MoveAction.removeFilesPhase ∉ executeMoveFile env ∧
    MoveAction.removeDirsPhase ∉ executeMoveFile env := by
  have hne : env.copyErrors.isEmpty = false := by
    cases hc : env.copyErrors with
    | nil => exact absurd hc h
    | cons a l => rfl
  constructor <;>
  · unfold executeMoveFile
    split_ifs <;>
      first
        | simp
        | (rw [moveFileCopyPhase_aborts _ _ hne]; split_ifs <;> simp)

/-- Witness for the gate theorem at a concrete environment. -/
theorem executeMoveFile_remove_gate_witness :
    (["e"] : List String) ≠ [] ∧
    (MoveAction.removeFilesPhase ∉ executeMoveFile
        ⟨true, true, true, 2, [["s", "d"]], [["s", "f.txt"]], ["s"], true,
          false, false, true, 0, true, true, ["e"], true, true, true⟩ ∧
      MoveAction.removeDirsPhase ∉ executeMoveFile
        ⟨true, true, true, 2, [["s", "d"]], [["s", "f.txt"]], ["s"], true,
          false, false, true, 0, true, true, ["e"], true, true, true⟩) :=
  ⟨by decide,
    executeMoveFile_remove_gate
      ⟨true, true, true, 2, [["s", "d"]], [["s", "f.txt"]], ["s"], true,
        false, false, true, 0, true, true, ["e"], true, true, true⟩ (by decide)⟩

/-- The failing environment for claim C1: the copy phase collected one
error, the source holds one directory and one file, every other collaborator
call succeeds. -/
def c1Env : MoveEnv :=
  ⟨true, true, true, 2, [["src", "d"]], [["src", "f.txt"]], ["src"], true,
    false, false, true, 0, true, true, ["Error copying file"], true, true, true⟩

/-- Claim C1 (code-bug evidence): in `execute_move` of
src/src/commands/move.rs the branch that reports copy errors does not
return, so with a non-empty copy error collection the remove phase still
runs and deletes source files and directories, while `execute` of
src/src/commands/file/move.rs aborts before any removal on the same
environment. -/
theorem executeMoveOld_removes_despite_copy_errors :
    c1Env.copyErrors ≠ [] ∧
    executeMoveOld c1Env
      = [.indexSource, .createDestDir, .copyDirsPhase, .copyFilesPhase, .verifyPhase,
         .removeFilesPhase, .removeDirsPhase] ∧
    MoveAction.removeFilesPhase ∈ executeMoveOld c1Env ∧
    executeMoveFile c1Env
      = [.indexSource, .createDestDir, .copyDirsPhase, .copyFilesPhase, .verifyPhase] ∧
    MoveAction.removeFilesPhase ∉ executeMoveFile c1Env := by
  exact ⟨by decide, by decide, by decide, by decide, by decide⟩
